import Mathlib

/-!
Verification of the slice-stack assembly (`mirp/importData/imageITKFileStack.py`,
`ImageITKFileStack.complete`) and of the physical-unit intensity model
(`mirp/_images/ct_image.py`, `CTImage`).

Per-slice metadata (origins, spacings, direction cosines), which the code reads from
file headers, is modelled with rational coordinates; all derived quantities (Euclidean
distances, means, rounded values) live in `ℝ`.  A raised Python exception is modelled
by an `Option` result being `none`.
-/

namespace Mirp

open List

/-- Per-slice metadata as populated by `load_metadata`: `origin*`/`spacing*` are in the
source (x, y, z) axis order, exactly as returned by `GetOrigin()` / `GetSpacing()`;
`direction` is the row-major flattening of the 3×3 direction-cosine matrix as returned
by `itk.array_from_matrix(... GetDirection())`; `sliceIndex` is the position in the
input collection (`original_object_order`, line 41). -/
structure SliceMeta where
  originX : ℚ
  originY : ℚ
  originZ : ℚ
  spacingX : ℚ
  spacingY : ℚ
  spacingZ : ℚ
  direction : List ℚ
  sliceIndex : ℕ
deriving DecidableEq

/-- Axis-reversed origin `np.array(GetOrigin())[::-1]` (line 33): canonical (z, y, x). -/
def canonOrigin (s : SliceMeta) : ℚ × ℚ × ℚ :=
  (s.originZ, s.originY, s.originX)

/-- Lexicographic comparison used by
`sort_values(by=["position_z", "position_y", "position_x"])` (line 45): primary key z,
ties broken on y, then on x. -/
def keyLe (a b : ℚ × ℚ × ℚ) : Prop :=
  a.1 < b.1 ∨ (a.1 = b.1 ∧ (a.2.1 < b.2.1 ∨ (a.2.1 = b.2.1 ∧ a.2.2 ≤ b.2.2)))

instance : DecidableRel keyLe := fun a b => by
  unfold keyLe; infer_instance

/-- Slice comparison by canonical origin. -/
def sliceLe (a b : SliceMeta) : Prop :=
  keyLe (canonOrigin a) (canonOrigin b)

instance : DecidableRel sliceLe := fun a b => by
  unfold sliceLe; infer_instance

instance : IsTotal SliceMeta sliceLe where
  total a b := by
    unfold sliceLe keyLe
    rcases lt_trichotomy (canonOrigin a).1 (canonOrigin b).1 with h1 | h1 | h1
    · exact Or.inl (Or.inl h1)
    · rcases lt_trichotomy (canonOrigin a).2.1 (canonOrigin b).2.1 with h2 | h2 | h2
      · exact Or.inl (Or.inr ⟨h1, Or.inl h2⟩)
      · rcases le_total (canonOrigin a).2.2 (canonOrigin b).2.2 with h3 | h3
        · exact Or.inl (Or.inr ⟨h1, Or.inr ⟨h2, h3⟩⟩)
        · exact Or.inr (Or.inr ⟨h1.symm, Or.inr ⟨h2.symm, h3⟩⟩)
      · exact Or.inr (Or.inr ⟨h1.symm, Or.inl h2⟩)
    · exact Or.inr (Or.inl h1)

instance : IsTrans SliceMeta sliceLe where
  trans a b c hab hbc := by
    unfold sliceLe keyLe at hab hbc ⊢
    rcases hab with h1 | ⟨e1, hy1⟩
    · rcases hbc with h2 | ⟨e2, _⟩
      · exact Or.inl (h1.trans h2)
      · exact Or.inl (h1.trans_eq e2)
    · rcases hbc with h2 | ⟨e2, hy2⟩
      · exact Or.inl (e1.trans_lt h2)
      · refine Or.inr ⟨e1.trans e2, ?_⟩
        rcases hy1 with h1 | ⟨f1, hx1⟩
        · rcases hy2 with h2 | ⟨f2, _⟩
          · exact Or.inl (h1.trans h2)
          · exact Or.inl (h1.trans_eq f2)
        · rcases hy2 with h2 | ⟨f2, hx2⟩
          · exact Or.inl (f1.trans_lt h2)
          · exact Or.inr ⟨f1.trans f2, hx1.trans hx2⟩

/-- The stable lexicographic sort performed by `sort_values` on the position table
(lines 40–51).  `pandas` uses `np.lexsort` (a stable sort) when sorting on several
columns; it is modelled by a stable insertion sort. -/
def sortSlices (l : List SliceMeta) : List SliceMeta :=
  List.insertionSort sliceLe l

open Classical

/-- Euclidean distance between two consecutive canonical origins (lines 57–60:
`np.sqrt(diff_x**2 + diff_y**2 + diff_z**2)`). -/
noncomputable def euclid (a b : ℚ × ℚ × ℚ) : ℝ :=
  Real.sqrt (((b.2.2 : ℝ) - (a.2.2 : ℝ)) ^ 2 + ((b.2.1 : ℝ) - (a.2.1 : ℝ)) ^ 2 +
    ((b.1 : ℝ) - (a.1 : ℝ)) ^ 2)

/-- Distances between consecutive entries (`np.diff` composed with the Euclidean norm,
lines 57–60); the list has length `N - 1`. -/
noncomputable def consecDists : List (ℚ × ℚ × ℚ) → List ℝ
  | a :: b :: rest => euclid a b :: consecDists (b :: rest)
  | _ => []

/-- `np.diff` of a rational coordinate list (used for the orientation z-row,
lines 94–96). -/
def consecDiffs : List ℚ → List ℚ
  | a :: b :: rest => (b - a) :: consecDiffs (b :: rest)
  | _ => []

/-- `np.min` over a non-empty real list (line 63).  The `[]` case is arbitrary: on an
empty array `np.min` raises, which `completeStack` models by returning `none` before
this value is ever used. -/
noncomputable def listMin1 : List ℝ → ℝ
  | [] => 0
  | x :: xs => xs.foldl min x

/-- `np.min` over a non-empty rational list (lines 94–96); same convention as
`listMin1`. -/
def listMinQ : List ℚ → ℚ
  | [] => 0
  | x :: xs => xs.foldl min x

/-- `np.mean` (line 79). -/
noncomputable def mean (l : List ℝ) : ℝ :=
  l.sum / l.length

/-- Rounding to the nearest integer with ties to even, the convention of `np.round` /
`np.around`. -/
noncomputable def rndHalfEven (x : ℝ) : ℤ :=
  if x - ⌊x⌋ < 1 / 2 then ⌊x⌋
  else if 1 / 2 < x - ⌊x⌋ then ⌊x⌋ + 1
  else if 2 ∣ ⌊x⌋ then ⌊x⌋ else ⌊x⌋ + 1

/-- `np.around(x, 5)`: round to 5 decimal places, ties to even. -/
noncomputable def round5 (x : ℝ) : ℝ :=
  (rndHalfEven (x * 100000) : ℝ) / 100000

/-- `np.unique` (line 70): the sorted list of distinct values. -/
noncomputable def uniqueSorted (l : List ℝ) : List ℝ :=
  List.insertionSort (· ≤ ·) l.dedup

/-- Running sums with an accumulator (`np.cumsum`, line 76). -/
noncomputable def cumsumAux (acc : ℝ) : List ℝ → List ℝ
  | [] => []
  | x :: xs => (acc + x) :: cumsumAux (acc + x) xs

/-- `np.cumsum` (line 76). -/
noncomputable def cumsum (l : List ℝ) : List ℝ :=
  cumsumAux 0 l

/-- The canonical origins of the sorted slices (the rows of `position_table` after
`sort_values`). -/
def sortedOrigins (l : List SliceMeta) : List (ℚ × ℚ × ℚ) :=
  (sortSlices l).map canonOrigin

/-- `image_slice_spacing` before the mean is taken (lines 57–60): consecutive Euclidean
distances between the sorted slice origins. -/
noncomputable def stackGaps (l : List SliceMeta) : List ℝ :=
  consecDists (sortedOrigins l)

/-- `min_slice_spacing = np.min(image_slice_spacing)` (line 63). -/
noncomputable def stackMinGap (l : List SliceMeta) : ℝ :=
  listMin1 (stackGaps l)

/-- `np.any(image_slice_spacing_multiplier > 1.2)` (lines 66–68), where the multiplier
of a gap is the gap divided by the minimum gap. -/
def stackIrregular (l : List SliceMeta) : Prop :=
  ∃ g ∈ stackGaps l, (1.2 : ℝ) < g / stackMinGap l

/-- The resolved z-spacing (line 79):
`np.around(np.mean(image_slice_spacing[image_slice_spacing_multiplier <= 1.2]), 5)`. -/
noncomputable def stackResolved (l : List SliceMeta) : ℝ :=
  round5 (mean ((stackGaps l).filter fun g => decide (g / stackMinGap l ≤ (1.2 : ℝ))))

/-- The `position_z` / `position_y` / `position_x` column of the sorted position table,
selected by the canonical axis index `j`. -/
def axisValues (l : List SliceMeta) (j : Fin 3) : List ℚ :=
  (sortSlices l).map fun s =>
    if j = 0 then s.originZ else if j = 1 then s.originY else s.originX

/-- `np.min(np.diff(position_table.position_<axis>.values))` (lines 94–96). -/
def axisMinDiff (l : List SliceMeta) (j : Fin 3) : ℚ :=
  listMinQ (consecDiffs (axisValues l j))

/-- Entry `(i, j)` of `np.reshape(np.ravel(direction)[::-1], [3, 3])` (lines 89–90):
the flattened direction matrix of a slice, reversed and reshaped to 3×3. -/
def revDirEntry (s : SliceMeta) (i j : Fin 3) : ℚ :=
  s.direction.reverse.getD (3 * i.val + j.val) 0

/-- The assembled orientation matrix (lines 88–101): the reversed direction matrix of
`self.image_file_objects[0]` — the first slice in the original *input* order, because
the reassignment of `image_file_objects` on lines 48–51 is an identity (see
`completeStack`) — whose z-row (row 0) is replaced by the vector of per-axis minimum
consecutive deltas of the sorted position table, each rounded to 5 decimals, divided by
the resolved z-spacing. -/
noncomputable def stackOrientation (l : List SliceMeta) (first : SliceMeta)
    (i j : Fin 3) : ℝ :=
  if i = 0 then round5 ((axisMinDiff l j : ℝ)) / stackResolved l
  else (revDirEntry first i j : ℝ)

/-- The fields set on the stack object by a successful `complete` call.
`imageFileObjects` models `self.image_file_objects` after lines 48–51; that
reassignment is an *identity* (after `sort_values`, `position_table` keeps its original
integer labels and `position_table.original_object_order[ii]` is pandas label-based
Series lookup, whose value at label `ii` is `ii`), so the list stays in the original
input order.  `warning` models the `warnings.warn` diagnostic of lines 69–73: when
present it carries the distinct observed spacing values
(`np.unique(image_slice_spacing)`). `slicePositions` models `self.slice_positions`,
which is only assigned on line 76.  The in-plane part of `image_dimension` (line 104)
comes from stack-level metadata outside the given sources and carries no claim, so it
is not modelled. -/
structure StackResult where
  imageFileObjects : List SliceMeta
  imageOrigin : ℚ × ℚ × ℚ
  resolvedZ : ℝ
  warning : Option (List ℝ)
  slicePositions : Option (List ℝ)
  imageSpacing : ℝ × ℝ × ℝ
  imageOrientation : Fin 3 → Fin 3 → ℝ

/-- The record produced by `complete` (lines 47–106) once the input collection is
known to be non-empty with `first` at its head and the gap list is non-empty.  Because
the reorder on lines 48–51 is a no-op, `first` is the head of the *input* list: the
origin (line 54), the nominal spacing (line 82) and the direction matrix (line 89) are
all read from `self.image_file_objects[0]`, the first slice in input order.  The
gap-derived quantities (resolved spacing, warning, slice positions, orientation z-row)
instead come from the sorted `position_table` columns. -/
noncomputable def assembleFields (l : List SliceMeta) (first : SliceMeta) : StackResult where
  imageFileObjects := l
  imageOrigin := canonOrigin first
  resolvedZ := stackResolved l
  warning := if stackIrregular l then some (uniqueSorted (stackGaps l)) else none
  slicePositions :=
    if stackIrregular l then some (cumsum ((0 : ℝ) :: (stackGaps l).map round5)) else none
  imageSpacing :=
    if (first.spacingZ : ℝ) = stackResolved l then
      ((first.spacingZ : ℝ), (first.spacingY : ℝ), (first.spacingX : ℝ))
    else (stackResolved l, (first.spacingY : ℝ), (first.spacingX : ℝ))
  imageOrientation := stackOrientation l first

/-- `ImageITKFileStack.complete` (lines 20–109).  The reassignment of
`self.image_file_objects` on lines 48–51 is an identity (label-based pandas lookup, see
`StackResult.imageFileObjects`), so the collection is matched in input order and
`first` is the first input-order slice.  `none` models a raised exception: with no
slices, `self.image_file_objects[0]` on line 54 raises `IndexError`; with a single
slice the gap array is empty and `np.min` on line 63 raises `ValueError`.  The final
`self.check(...)` call (line 109) is declared outside the given sources; it only
validates and does not alter the fields recorded here. -/
noncomputable def completeStack (l : List SliceMeta) : Option StackResult :=
  match l, stackGaps l with
  | [], _ => none
  | _ :: _, [] => none
  | first :: _, _ :: _ => some (assembleFields l first)

/-- Spec §4.1 steps 3–6, stated in the spec's own words: consecutive Euclidean
distances between sorted slice origins, `minSpacing` their minimum, each gap's
multiplier the gap divided by `minSpacing`; the resolved z-spacing is the mean of the
gaps whose multiplier is at most 1.2, rounded to 5 decimal places. -/
noncomputable def specResolvedZ (l : List SliceMeta) : ℝ :=
  let gaps := consecDists ((sortSlices l).map canonOrigin)
  let minSpacing := listMin1 gaps
  round5 (mean (gaps.filter fun g => decide (g / minSpacing ≤ (1.2 : ℝ))))

/-- The orientation matrix exactly as claim C4 words it (this definition follows the
claim, not the code, and exists only to be refuted): row 0 is the vector of smallest
consecutive positional deltas along each canonical axis divided by the resolved
z-spacing (no rounding of the deltas); rows 1 and 2 are taken verbatim from the
reversed direction matrix of `first`, which the claim takes to be the first *sorted*
slice. -/
noncomputable def claimOrientationC4 (l : List SliceMeta) (first : SliceMeta)
    (i j : Fin 3) : ℝ :=
  if i = 0 then (axisMinDiff l j : ℝ) / stackResolved l
  else (revDirEntry first i j : ℝ)

/-- One entry of the assembled orientation matrix, `none` when assembly fails. -/
noncomputable def orientEntry (l : List SliceMeta) (i j : Fin 3) : Option ℝ :=
  Option.map (fun r => r.imageOrientation i j) (completeStack l)

/-- The slice collection as stored by assembly (`self.image_file_objects` after
lines 48–51), `none` when assembly fails. -/
noncomputable def storedOrderOf (l : List SliceMeta) : Option (List SliceMeta) :=
  Option.map (fun r => r.imageFileObjects) (completeStack l)

/-- The assembled spacing vector, `none` when assembly fails. -/
noncomputable def spacingOf (l : List SliceMeta) : Option (ℝ × ℝ × ℝ) :=
  Option.map (fun r => r.imageSpacing) (completeStack l)

/-- The resolved z-spacing recorded by assembly, `none` when assembly fails. -/
noncomputable def resolvedOf (l : List SliceMeta) : Option ℝ :=
  Option.map (fun r => r.resolvedZ) (completeStack l)

/-- Flattened voxel grid of an image. -/
abbrev VoxelData := List ℝ

/-- The recognised normalisation methods (`"none"`, `"range"`, `"relative_range"`,
`"quantile_range"`); the Python `None` argument is modelled by `Option.none` at the
call sites. -/
inductive NormMethod
  | nonorm
  | range
  | relativeRange
  | quantileRange
deriving DecidableEq

/-- The fields of a `GenericImage` relevant to the claims: voxel data, the geometry
fields (origin, spacing, orientation — stored flattened —, dimension) and the
accumulated diagnostic metadata. -/
structure ImageBase where
  imageData : Option VoxelData
  imageOrigin : ℝ × ℝ × ℝ
  imageSpacing : ℝ × ℝ × ℝ
  imageOrientation : List ℝ
  imageDimension : ℕ × ℕ × ℕ
  diagnostics : List String

/-- An image entity together with its runtime class: `CTImage` (the physical-unit,
`ExactPhysicalUnit` variant) or plain `GenericImage` (the `ArbitraryScale` variant). -/
inductive AnyImage
  | generic (base : ImageBase)
  | ct (base : ImageBase)

/-- `np.round` applied to one voxel value (line 20 of `ct_image.py`): round to the
nearest integer, ties to even. -/
noncomputable def roundHalfEvenR (v : ℝ) : ℝ :=
  ((rndHalfEven v : ℤ) : ℝ)

/-- `CTImage.update_image_data` (`ct_image.py` lines 15–20): with absent data the
method returns immediately leaving the entity unchanged; otherwise every voxel value is
rounded to the nearest integer by `np.round`. -/
noncomputable def CTImage.update_image_data (self : ImageBase) : ImageBase :=
  match self.imageData with
  | Option.none => self
  | some d => { self with imageData := some (d.map roundHalfEvenR) }

/-- Modelled from the spec: the voxel-data assignment of the physical-unit variant.
The setter itself lives in `mirp/_images/generic_image.py`, which is not among the
given sources; per the spec (§4.4: "A post-load integrity step specific to the
physical-unit variant rounds voxel values to the nearest integer after any data
assignment") it stores the data and then runs `update_image_data`. -/
noncomputable def ctSetData (self : ImageBase) (d : VoxelData) : ImageBase :=
  CTImage.update_image_data { self with imageData := some d }

/-- Modelled from the spec: a freshly constructed `GenericImage(image_data=...)`
(`GenericImage.__init__` is in `mirp/_images/generic_image.py`, not among the given
sources) before `update_from_template` runs.  The constructor's default geometry
values are irrelevant: every geometry field is overwritten by the template copy. -/
def blankImage : ImageBase where
  imageData := Option.none
  imageOrigin := (0, 0, 0)
  imageSpacing := (1, 1, 1)
  imageOrientation := [1, 0, 0, 0, 1, 0, 0, 0, 1]
  imageDimension := (0, 0, 0)
  diagnostics := []

/-- Modelled from the spec: `update_from_template` (declared in
`mirp/_images/generic_image.py`, not among the given sources) performs a
"field-by-field copy of origin/spacing/orientation/dimension and any accumulated
diagnostics" from the template (§4.4); voxel data is not copied. -/
def updateFromTemplate (self template : ImageBase) : ImageBase :=
  { self with
    imageOrigin := template.imageOrigin
    imageSpacing := template.imageSpacing
    imageOrientation := template.imageOrientation
    imageDimension := template.imageDimension
    diagnostics := template.diagnostics }

/-- Modelled from the spec: `GenericImage.normalise_intensities` (the `super()` call on
line 33 of `ct_image.py`; `mirp/_images/generic_image.py` is not among the given
sources).  Per §4.4 and §6 it is an identity for absent data or an absent/`"none"`
method, and otherwise returns an entity with the same geometry and diagnostics whose
voxel data is the transformed data; the receiver is not mutated.  The concrete
per-voxel maps are not specified by the spec, so they are abstracted as the parameter
`normaliseData`; no theorem depends on their specific values. -/
def genericNormalise (normaliseData : NormMethod → VoxelData → VoxelData)
    (self : ImageBase) (method : Option NormMethod) : ImageBase :=
  match self.imageData with
  | Option.none => self
  | some d =>
    match method with
    | Option.none => self
    | some NormMethod.nonorm => self
    | some m => { self with imageData := some (normaliseData m d) }

/-- `CTImage.normalise_intensities` (`ct_image.py` lines 22–49): call the generic
normalisation, return `self` when the result has no data or the method is absent or
`"none"`, and otherwise build a new `GenericImage` from the transformed data and copy
the geometry from the returned image via `update_from_template`. -/
def CTImage.normalise_intensities (normaliseData : NormMethod → VoxelData → VoxelData)
    (self : ImageBase) (method : Option NormMethod) : AnyImage :=
  let image := genericNormalise normaliseData self method
  match image.imageData with
  | Option.none => AnyImage.ct self
  | some _ =>
    match method with
    | Option.none => AnyImage.ct self
    | some NormMethod.nonorm => AnyImage.ct self
    | some _ =>
      AnyImage.generic (updateFromTemplate { blankImage with imageData := image.imageData } image)

/-- Modelled from the spec: `GenericImage.scale_intensities` (the `super()` call on
line 53 of `ct_image.py`; `mirp/_images/generic_image.py` is not among the given
sources).  Per §8 scaling multiplies every voxel value by the factor; with absent data
it is an identity; the receiver is not mutated. -/
noncomputable def genericScale (self : ImageBase) (scale : ℝ) : ImageBase :=
  match self.imageData with
  | Option.none => self
  | some d => { self with imageData := some (d.map fun v => v * scale) }

/-- `CTImage.scale_intensities` (`ct_image.py` lines 51–66): call the generic scaling,
return `self` when the result has no data or the scale is `1.0`, and otherwise build a
new `GenericImage` from the scaled data and copy the geometry from the returned image
via `update_from_template`. -/
noncomputable def CTImage.scale_intensities (self : ImageBase) (scale : ℝ) : AnyImage :=
  let image := genericScale self scale
  match image.imageData with
  | Option.none => AnyImage.ct self
  | some _ =>
    if scale = 1 then AnyImage.ct self
    else AnyImage.generic (updateFromTemplate { blankImage with imageData := image.imageData } image)

/-! Concrete data used by the witness and counterexample theorems. -/

/-- A slice at canonical origin (0, 0, 0) with identity direction cosines. -/
def wSliceA : SliceMeta :=
  ⟨0, 0, 0, 1, 1, 1, [1, 0, 0, 0, 1, 0, 0, 0, 1], 0⟩

/-- A slice one unit above `wSliceA` along z. -/
def wSliceB : SliceMeta :=
  ⟨0, 0, 1, 1, 1, 1, [1, 0, 0, 0, 1, 0, 0, 0, 1], 1⟩

/-- A slice two units above `wSliceA` along z. -/
def wSliceC : SliceMeta :=
  ⟨0, 0, 2, 1, 1, 1, [1, 0, 0, 0, 1, 0, 0, 0, 1], 2⟩

/-- A slice at z = 1/3, giving a gap whose 5-decimal rounding is strict. -/
def wSliceThird : SliceMeta :=
  ⟨0, 0, 1 / 3, 1, 1, 1, [1, 0, 0, 0, 1, 0, 0, 0, 1], 1⟩

/-- A lone slice used for the single-slice counterexample. -/
def cSlice7 : SliceMeta :=
  ⟨1, 2, 3, 1, 1, 2, [1, 0, 0, 0, 1, 0, 0, 0, 1], 0⟩

/-- The two-slice stack refuting claim C4's unrounded z-row formula. -/
def exC4 : List SliceMeta :=
  [wSliceA, wSliceThird]

/-- A two-slice collection given in descending z order: input [z = 1, z = 0].  Since
the reorder on lines 48–51 is a no-op, assembly stores it unchanged. -/
def ex2 : List SliceMeta :=
  [wSliceB, wSliceA]

/-- A slice at z = 0 with nominal spacing (x, y, z) = (4, 5, 2). -/
def sA8 : SliceMeta :=
  ⟨0, 0, 0, 4, 5, 2, [1, 0, 0, 0, 1, 0, 0, 0, 1], 0⟩

/-- A slice at z = 1 with nominal spacing (x, y, z) = (3, 7, 1). -/
def sB8 : SliceMeta :=
  ⟨0, 0, 1, 3, 7, 1, [1, 0, 0, 0, 1, 0, 0, 0, 1], 1⟩

/-- A two-slice collection in descending z order whose two slices carry different
nominal spacings: the first *sorted* slice is `sA8` but the code reads the nominal
spacing from the first *input* slice `sB8`. -/
def ex8 : List SliceMeta :=
  [sB8, sA8]

/-- The identity per-voxel normalisation map, used to instantiate the abstract
`normaliseData` parameter in witnesses. -/
def idNormalise : NormMethod → VoxelData → VoxelData :=
  fun _ d => d

/-- A physical-unit image with one fractional voxel value. -/
noncomputable def wBase5 : ImageBase where
  imageData := some [(5 : ℝ) / 2]
  imageOrigin := (0, 1, 2)
  imageSpacing := (1, 1, 1)
  imageOrientation := [1, 0, 0, 0, 1, 0, 0, 0, 1]
  imageDimension := (1, 1, 1)
  diagnostics := []

/-- A physical-unit image with two fractional voxel values. -/
noncomputable def wBase9 : ImageBase where
  imageData := some [(5 : ℝ) / 2, -(1 : ℝ) / 2]
  imageOrigin := (0, 0, 0)
  imageSpacing := (2, 1, 1)
  imageOrientation := [1, 0, 0, 0, 1, 0, 0, 0, 1]
  imageDimension := (1, 1, 2)
  diagnostics := []

/-- A physical-unit image without voxel data. -/
noncomputable def wBase10 : ImageBase where
  imageData := Option.none
  imageOrigin := (0, 0, 0)
  imageSpacing := (1, 1, 1)
  imageOrientation := [1, 0, 0, 0, 1, 0, 0, 0, 1]
  imageDimension := (0, 0, 0)
  diagnostics := []

/-! ### Lemmas about the lexicographic slice order -/

theorem not_sliceLe_of_z_lt {a b : SliceMeta} (h : b.originZ < a.originZ) :
    ¬ sliceLe a b := by
  intro hle
  unfold sliceLe keyLe at hle
  rcases hle with h1 | ⟨h1, _⟩
  · have h1' : a.originZ < b.originZ := h1
    exact lt_irrefl _ (h1'.trans h)
  · have h1' : a.originZ = b.originZ := h1
    exact lt_irrefl _ (h1' ▸ h)

theorem sortSlices_pair_swap {a b : SliceMeta} (h : ¬ sliceLe a b) :
    sortSlices [a, b] = [b, a] := by
  have hstep : sortSlices [a, b] = List.orderedInsert sliceLe a [b] := rfl
  rw [hstep]
  simp [List.orderedInsert, h]

/-! ### Evaluation lemmas for `completeStack` -/

theorem sortSlices_two {l : List SliceMeta} (h : 2 ≤ l.length) :
    ∃ a b t, sortSlices l = a :: b :: t := by
  have hlen : (sortSlices l).length = l.length := List.length_insertionSort _ _
  rcases hcase : sortSlices l with _ | ⟨a, _ | ⟨b, t⟩⟩
  · rw [hcase] at hlen; simp at hlen; omega
  · rw [hcase] at hlen; simp at hlen; omega
  · exact ⟨a, b, t, rfl⟩

theorem length_two_shape {l : List SliceMeta} (h : 2 ≤ l.length) :
    ∃ a b t, l = a :: b :: t := by
  rcases l with _ | ⟨a, _ | ⟨b, t⟩⟩
  · simp at h
  · simp at h
  · exact ⟨a, b, t, rfl⟩

theorem stackGaps_cons {l : List SliceMeta} {a b : SliceMeta} {t : List SliceMeta}
    (hcase : sortSlices l = a :: b :: t) :
    stackGaps l = euclid (canonOrigin a) (canonOrigin b) ::
      consecDists (canonOrigin b :: t.map canonOrigin) := by
  unfold stackGaps sortedOrigins
  rw [hcase]
  rfl

theorem stackGaps_ne_nil {l : List SliceMeta} (h : 2 ≤ l.length) : stackGaps l ≠ [] := by
  obtain ⟨a, b, t, hs⟩ := sortSlices_two h
  rw [stackGaps_cons hs]
  simp

theorem euclid_z (z₁ z₂ y x : ℚ) (h : z₁ ≤ z₂) :
    euclid (z₁, y, x) (z₂, y, x) = (z₂ : ℝ) - (z₁ : ℝ) := by
  have h0 : ((x : ℝ) - (x : ℝ)) ^ 2 + ((y : ℝ) - (y : ℝ)) ^ 2 + ((z₂ : ℝ) - (z₁ : ℝ)) ^ 2 =
      ((z₂ : ℝ) - (z₁ : ℝ)) ^ 2 := by ring
  simp only [euclid]
  rw [h0]
  exact Real.sqrt_sq (sub_nonneg.mpr (by exact_mod_cast h))

theorem completeStack_eq_some {l : List SliceMeta} {first : SliceMeta}
    {rest : List SliceMeta} (hl : l = first :: rest) (hg : stackGaps l ≠ []) :
    completeStack l = some (assembleFields l first) := by
  subst hl
  rcases hgap : stackGaps (first :: rest) with _ | ⟨g, gs⟩
  · exact absurd hgap hg
  · unfold completeStack
    rw [hgap]

theorem assembleFields_imageFileObjects (l : List SliceMeta) (first : SliceMeta) :
    (assembleFields l first).imageFileObjects = l := rfl

theorem assembleFields_origin (l : List SliceMeta) (first : SliceMeta) :
    (assembleFields l first).imageOrigin = canonOrigin first := rfl

theorem assembleFields_resolvedZ (l : List SliceMeta) (first : SliceMeta) :
    (assembleFields l first).resolvedZ = stackResolved l := rfl

theorem assembleFields_warning (l : List SliceMeta) (first : SliceMeta) :
    (assembleFields l first).warning =
      if stackIrregular l then some (uniqueSorted (stackGaps l)) else none := rfl

theorem assembleFields_slicePositions (l : List SliceMeta) (first : SliceMeta) :
    (assembleFields l first).slicePositions =
      if stackIrregular l then some (cumsum ((0 : ℝ) :: (stackGaps l).map round5))
      else none := rfl

theorem assembleFields_spacing (l : List SliceMeta) (first : SliceMeta) :
    (assembleFields l first).imageSpacing =
      if (first.spacingZ : ℝ) = stackResolved l then
        ((first.spacingZ : ℝ), (first.spacingY : ℝ), (first.spacingX : ℝ))
      else (stackResolved l, (first.spacingY : ℝ), (first.spacingX : ℝ)) := rfl

theorem assembleFields_orientation (l : List SliceMeta) (first : SliceMeta) :
    (assembleFields l first).imageOrientation = stackOrientation l first := rfl

/-! ### Minimum lemmas -/

theorem foldl_min_le {α : Type*} [LinearOrder α] :
    ∀ (l : List α) (x : α), l.foldl min x ≤ x ∧ ∀ y ∈ l, l.foldl min x ≤ y := by
  intro l
  induction l with
  | nil =>
      intro x
      exact ⟨le_refl x, by simp⟩
  | cons y t ih =>
      intro x
      simp only [List.foldl_cons]
      have h := ih (min x y)
      refine ⟨h.1.trans (min_le_left x y), ?_⟩
      intro z hz
      rcases List.mem_cons.mp hz with rfl | hz
      · exact h.1.trans (min_le_right x z)
      · exact h.2 z hz

theorem foldl_min_choice {α : Type*} [LinearOrder α] :
    ∀ (l : List α) (x : α), l.foldl min x = x ∨ l.foldl min x ∈ l := by
  intro l
  induction l with
  | nil =>
      intro x
      exact Or.inl rfl
  | cons y t ih =>
      intro x
      simp only [List.foldl_cons]
      rcases ih (min x y) with h | h
      · rcases min_choice x y with h' | h'
        · exact Or.inl (h.trans h')
        · exact Or.inr (by rw [h, h']; exact List.mem_cons_self y t)
      · exact Or.inr (List.mem_cons_of_mem y h)

theorem listMin1_le {l : List ℝ} {x : ℝ} (hx : x ∈ l) : listMin1 l ≤ x := by
  cases l with
  | nil => cases hx
  | cons a t =>
      have hred : listMin1 (a :: t) = t.foldl min a := rfl
      rw [hred]
      rcases List.mem_cons.mp hx with rfl | hx
      · exact (foldl_min_le t x).1
      · exact (foldl_min_le t a).2 x hx

theorem listMin1_mem {l : List ℝ} (h : l ≠ []) : listMin1 l ∈ l := by
  cases l with
  | nil => exact absurd rfl h
  | cons a t =>
      have hred : listMin1 (a :: t) = t.foldl min a := rfl
      rw [hred]
      rcases foldl_min_choice t a with h' | h'
      · rw [h']; exact List.mem_cons_self a t
      · exact List.mem_cons_of_mem a h'

/-- When all gaps are equal, every multiplier is `0/0 = 0` or `1`, so the irregularity
test fails. -/
theorem not_irregular_of_const {l : List SliceMeta} (hne : stackGaps l ≠ [])
    (hconst : ∀ g₁ ∈ stackGaps l, ∀ g₂ ∈ stackGaps l, g₁ = g₂) :
    ¬ stackIrregular l := by
  rintro ⟨g, hg, hgt⟩
  have hmem : stackMinGap l ∈ stackGaps l := listMin1_mem hne
  have heq : g = stackMinGap l := hconst g hg _ hmem
  rw [heq] at hgt
  by_cases h0 : stackMinGap l = 0
  · rw [h0] at hgt
    norm_num at hgt
  · rw [div_self h0] at hgt
    norm_num at hgt

/-! ### The claims -/

/-- C1: for every slice collection with at least two slices, stack assembly succeeds
and the resolved z-spacing it records equals the mean of the consecutive Euclidean
distances between the sorted slice origins whose multiplier (distance divided by the
minimum distance) is at most 1.2, rounded to 5 decimal places; gaps with multiplier
greater than 1.2 are excluded from the mean. -/
theorem c1_resolved_z_spacing {l : List SliceMeta} (h : 2 ≤ l.length) :
    ∃ r, completeStack l = some r ∧ r.resolvedZ = specResolvedZ l := by
  obtain ⟨a, b, t, hl⟩ := length_two_shape h
  exact ⟨assembleFields l a, completeStack_eq_some hl (stackGaps_ne_nil h), rfl⟩

theorem c1_witness :
    2 ≤ ([wSliceA, wSliceB] : List SliceMeta).length ∧
      ∃ r, completeStack [wSliceA, wSliceB] = some r ∧
        r.resolvedZ = specResolvedZ [wSliceA, wSliceB] :=
  ⟨by decide, c1_resolved_z_spacing (by decide)⟩

theorem sort_ex2 : sortSlices ex2 = [wSliceA, wSliceB] :=
  sortSlices_pair_swap (not_sliceLe_of_z_lt (by show (0 : ℚ) < 1; norm_num))

/-- C2 (code bug): the claim — assembly reorders the slices into ascending canonical
origin order — describes the code's evident intent (line 47: `# Sort image file
objects.`), but the reassignment on lines 48–51 is an identity: after `sort_values`
the table keeps its original integer labels and `position_table.original_object_order[ii]`
is pandas label-based Series lookup, whose value at label `ii` is `ii`.  For the
concrete descending input `ex2 = [z = 1, z = 0]`, the ascending order is
`[z = 0, z = 1]`, yet assembly stores the collection unchanged, so the slices are not
reordered. -/
theorem c2_no_reorder :
    sortSlices ex2 = [wSliceA, wSliceB] ∧
    storedOrderOf ex2 = some [wSliceB, wSliceA] ∧
    ([wSliceB, wSliceA] : List SliceMeta) ≠ [wSliceA, wSliceB] := by
  refine ⟨sort_ex2, ?_, ?_⟩
  · have hg2 : stackGaps ex2 ≠ [] := by
      rw [stackGaps_cons sort_ex2]
      simp
    have hcs : completeStack ex2 = some (assembleFields ex2 wSliceB) :=
      completeStack_eq_some rfl hg2
    unfold storedOrderOf
    rw [hcs]
    rfl
  · intro hcontra
    have hBA : wSliceB = wSliceA := by injection hcontra
    have hz := congrArg SliceMeta.originZ hBA
    have hz' : (1 : ℚ) = 0 := hz
    norm_num at hz'

/-- C3: with at least two slices, assembly emits the non-fatal irregular-spacing
diagnostic carrying the distinct observed spacing values precisely when some gap
multiplier exceeds 1.2, and exactly in that case records `slicePositions` as the
cumulative sum of the gaps rounded to 5 decimals prefixed with 0.0; when no multiplier
exceeds 1.2 — in particular when all gaps are equal — neither is recorded. -/
theorem c3_irregular_diagnostic {l : List SliceMeta} (h : 2 ≤ l.length) :
    ∃ r, completeStack l = some r ∧
      ((∃ g ∈ stackGaps l, (1.2 : ℝ) < g / stackMinGap l) →
        r.warning = some (uniqueSorted (stackGaps l)) ∧
        r.slicePositions = some (cumsum ((0 : ℝ) :: (stackGaps l).map round5))) ∧
      ((¬ ∃ g ∈ stackGaps l, (1.2 : ℝ) < g / stackMinGap l) →
        r.warning = none ∧ r.slicePositions = none) ∧
      ((∀ g₁ ∈ stackGaps l, ∀ g₂ ∈ stackGaps l, g₁ = g₂) →
        r.warning = none ∧ r.slicePositions = none) := by
  obtain ⟨a, b, t, hl⟩ := length_two_shape h
  have hne : stackGaps l ≠ [] := stackGaps_ne_nil h
  refine ⟨assembleFields l a, completeStack_eq_some hl hne, ?_, ?_, ?_⟩
  · intro hirr
    have hi : stackIrregular l := hirr
    rw [assembleFields_warning, assembleFields_slicePositions, if_pos hi, if_pos hi]
    exact ⟨rfl, rfl⟩
  · intro hnirr
    have hi : ¬ stackIrregular l := hnirr
    rw [assembleFields_warning, assembleFields_slicePositions, if_neg hi, if_neg hi]
    exact ⟨rfl, rfl⟩
  · intro hconst
    have hi : ¬ stackIrregular l := not_irregular_of_const hne hconst
    rw [assembleFields_warning, assembleFields_slicePositions, if_neg hi, if_neg hi]
    exact ⟨rfl, rfl⟩

theorem c3_witness :
    2 ≤ ([wSliceA, wSliceB, wSliceC] : List SliceMeta).length ∧
      ∃ r, completeStack [wSliceA, wSliceB, wSliceC] = some r ∧
        ((∃ g ∈ stackGaps [wSliceA, wSliceB, wSliceC],
            (1.2 : ℝ) < g / stackMinGap [wSliceA, wSliceB, wSliceC]) →
          r.warning = some (uniqueSorted (stackGaps [wSliceA, wSliceB, wSliceC])) ∧
          r.slicePositions =
            some (cumsum ((0 : ℝ) :: (stackGaps [wSliceA, wSliceB, wSliceC]).map round5))) ∧
        ((¬ ∃ g ∈ stackGaps [wSliceA, wSliceB, wSliceC],
            (1.2 : ℝ) < g / stackMinGap [wSliceA, wSliceB, wSliceC]) →
          r.warning = none ∧ r.slicePositions = none) ∧
        ((∀ g₁ ∈ stackGaps [wSliceA, wSliceB, wSliceC],
            ∀ g₂ ∈ stackGaps [wSliceA, wSliceB, wSliceC], g₁ = g₂) →
          r.warning = none ∧ r.slicePositions = none) :=
  ⟨by decide, c3_irregular_diagnostic (by decide)⟩

/-- C7 (amended): a single-slice collection does not complete: the gap list is empty,
`np.min` on line 63 raises `ValueError`, and assembly fails (modelled by `none`); the
multiplier/mean resolver logic is never reached. -/
theorem c7_single_slice_raises (s : SliceMeta) : completeStack [s] = none := by
  have hg : stackGaps [s] = [] := rfl
  unfold completeStack
  rw [hg]

/-- C7 counterexample: for a concrete single-slice collection, assembly does not
complete without error — `completeStack` returns `none` (the `np.min` of the empty gap
array raises), contradicting the claim that assembly completes with the slice's own
nominal spacing. -/
theorem c7_counterexample : completeStack [cSlice7] = none := by
  have hg : stackGaps [cSlice7] = [] := rfl
  unfold completeStack
  rw [hg]

theorem sort_ex8 : sortSlices ex8 = [sA8, sB8] :=
  sortSlices_pair_swap (not_sliceLe_of_z_lt (by show (0 : ℚ) < 1; norm_num))

theorem gaps_ex8 : stackGaps ex8 = [(1 : ℝ)] := by
  rw [stackGaps_cons sort_ex8]
  have h1 : canonOrigin sA8 = ((0 : ℚ), (0 : ℚ), (0 : ℚ)) := rfl
  have h2 : canonOrigin sB8 = ((1 : ℚ), (0 : ℚ), (0 : ℚ)) := rfl
  rw [h1, h2, euclid_z 0 1 0 0 (by norm_num)]
  norm_num [consecDists]

theorem round5_one : round5 (1 : ℝ) = 1 := by
  have hfl : ⌊(100000 : ℝ)⌋ = 100000 := by
    rw [Int.floor_eq_iff]
    constructor <;> norm_num
  have hcond : (100000 : ℝ) - ((100000 : ℤ) : ℝ) < 1 / 2 := by norm_num
  unfold round5 rndHalfEven
  rw [show (1 : ℝ) * 100000 = 100000 by norm_num, hfl, if_pos hcond]
  norm_num

theorem resolved_ex8 : stackResolved ex8 = 1 := by
  have hmin : stackMinGap ex8 = 1 := by
    have hdef : stackMinGap ex8 = listMin1 (stackGaps ex8) := rfl
    rw [hdef, gaps_ex8]
    rfl
  unfold stackResolved
  simp only [gaps_ex8, hmin]
  have hfil : (([(1 : ℝ)]).filter fun g => decide (g / 1 ≤ (1.2 : ℝ))) = [(1 : ℝ)] := by
    simp only [List.filter_cons, List.filter_nil]
    rw [if_pos (decide_eq_true (by norm_num))]
  rw [hfil]
  have hmean : mean [(1 : ℝ)] = 1 := by
    unfold mean
    simp
  rw [hmean, round5_one]

/-- C8 (code bug): the claim — the spacing branch compares the resolved z-spacing with
the *first sorted* slice's nominal z-spacing and takes the nominal in-plane components
from that slice — is the code's evident intent, but line 82 reads `GetSpacing()` from
`self.image_file_objects[0]`, which the no-op reorder of lines 48–51 leaves as the
first *input-order* slice.  For `ex8` (input [z = 1, z = 0]) the first sorted slice is
`sA8` with nominal spacing (z, y, x) = (2, 5, 4): the resolved spacing 1 differs from
its nominal z, so the claim requires the assembled spacing (1, 5, 4); the code instead
records (1, 7, 3), the first input slice's nominal spacing. -/
theorem c8_code_bug :
    sortSlices ex8 = [sA8, sB8] ∧
    resolvedOf ex8 = some 1 ∧
    (sA8.spacingZ : ℝ) ≠ 1 ∧
    spacingOf ex8 = some ((1 : ℝ), (7 : ℝ), (3 : ℝ)) ∧
    ((1 : ℝ), (7 : ℝ), (3 : ℝ)) ≠ ((1 : ℝ), (sA8.spacingY : ℝ), (sA8.spacingX : ℝ)) := by
  have hg8 : stackGaps ex8 ≠ [] := by
    rw [gaps_ex8]
    simp
  have hcs : completeStack ex8 = some (assembleFields ex8 sB8) :=
    completeStack_eq_some rfl hg8
  refine ⟨sort_ex8, ?_, ?_, ?_, ?_⟩
  · unfold resolvedOf
    rw [hcs]
    simp [assembleFields_resolvedZ, resolved_ex8]
  · show ((2 : ℚ) : ℝ) ≠ 1
    norm_num
  · have hsp : (assembleFields ex8 sB8).imageSpacing = ((1 : ℝ), (7 : ℝ), (3 : ℝ)) := by
      rw [assembleFields_spacing]
      have heq : (sB8.spacingZ : ℝ) = stackResolved ex8 := by
        rw [resolved_ex8]
        show ((1 : ℚ) : ℝ) = 1
        norm_num
      rw [if_pos heq]
      show (((1 : ℚ) : ℝ), ((7 : ℚ) : ℝ), ((3 : ℚ) : ℝ)) = ((1 : ℝ), (7 : ℝ), (3 : ℝ))
      norm_num
    unfold spacingOf
    rw [hcs]
    simp [hsp]
  · intro hcontra
    have h2 := congrArg (fun p : ℝ × ℝ × ℝ => p.2.1) hcontra
    have h2' : (7 : ℝ) = ((5 : ℚ) : ℝ) := h2
    norm_num at h2'

/-- C4 (amended): with at least two slices, the assembled orientation matrix is the
direction matrix of `image_file_objects[0]` — the first slice of the stored collection,
which is the first slice in input order because the reorder of lines 48–51 is a no-op —
with its flattened entries reversed and reshaped to 3×3, whose row 0 is overwritten by
the vector of the smallest consecutive positional deltas of the sorted position table
along each canonical axis, **each rounded to 5 decimal places**, divided by the
resolved z-spacing; rows 1 and 2 are taken verbatim from that reversed source
matrix. -/
theorem c4_orientation_amended {l : List SliceMeta} (h : 2 ≤ l.length) :
    ∃ first rest r, l = first :: rest ∧ completeStack l = some r ∧
      (∀ j, r.imageOrientation 0 j = round5 ((axisMinDiff l j : ℝ)) / r.resolvedZ) ∧
      (∀ i j, i ≠ 0 → r.imageOrientation i j = (revDirEntry first i j : ℝ)) := by
  obtain ⟨a, b, t, hl⟩ := length_two_shape h
  refine ⟨a, b :: t, assembleFields l a, hl,
    completeStack_eq_some hl (stackGaps_ne_nil h), ?_, ?_⟩
  · intro j
    rw [assembleFields_orientation, assembleFields_resolvedZ]
    unfold stackOrientation
    rw [if_pos rfl]
  · intro i j hij
    rw [assembleFields_orientation]
    unfold stackOrientation
    rw [if_neg hij]

theorem c4_witness :
    2 ≤ ([wSliceA, wSliceC] : List SliceMeta).length ∧
      ∃ first rest r, ([wSliceA, wSliceC] : List SliceMeta) = first :: rest ∧
        completeStack [wSliceA, wSliceC] = some r ∧
        (∀ j, r.imageOrientation 0 j =
          round5 ((axisMinDiff [wSliceA, wSliceC] j : ℝ)) / r.resolvedZ) ∧
        (∀ i j, i ≠ 0 → r.imageOrientation i j = (revDirEntry first i j : ℝ)) :=
  ⟨by decide, c4_orientation_amended (by decide)⟩

/-! ### Concrete evaluation of `completeStack` on `exC4` (for the C4 counterexample) -/

theorem sliceLe_A_third : sliceLe wSliceA wSliceThird := by
  unfold sliceLe keyLe
  exact Or.inl (by show (0 : ℚ) < 1 / 3; norm_num)

theorem sort_exC4 : sortSlices exC4 = [wSliceA, wSliceThird] := by
  refine List.Sorted.insertionSort_eq (List.sorted_cons.mpr ⟨?_, List.sorted_singleton _⟩)
  intro b hb
  rw [List.mem_singleton.mp hb]
  exact sliceLe_A_third

theorem gaps_exC4 : stackGaps exC4 = [(1 : ℝ) / 3] := by
  rw [stackGaps_cons sort_exC4]
  have h1 : canonOrigin wSliceA = ((0 : ℚ), (0 : ℚ), (0 : ℚ)) := rfl
  have h2 : canonOrigin wSliceThird = ((1 / 3 : ℚ), (0 : ℚ), (0 : ℚ)) := rfl
  rw [h1, h2, euclid_z 0 (1 / 3) 0 0 (by norm_num)]
  norm_num [consecDists]

theorem min_exC4 : stackMinGap exC4 = 1 / 3 := by
  have hdef : stackMinGap exC4 = listMin1 (stackGaps exC4) := rfl
  rw [hdef, gaps_exC4]
  rfl

theorem floor_100000_3 : ⌊(100000 / 3 : ℝ)⌋ = 33333 := by
  rw [Int.floor_eq_iff]
  constructor <;> norm_num

theorem rnd_100000_3 : rndHalfEven ((100000 : ℝ) / 3) = 33333 := by
  have hcond : (100000 : ℝ) / 3 - ((33333 : ℤ) : ℝ) < 1 / 2 := by norm_num
  unfold rndHalfEven
  rw [floor_100000_3, if_pos hcond]

theorem round5_third : round5 ((1 : ℝ) / 3) = 33333 / 100000 := by
  unfold round5
  rw [show (1 : ℝ) / 3 * 100000 = 100000 / 3 by ring, rnd_100000_3]
  norm_num

theorem resolved_exC4 : stackResolved exC4 = 33333 / 100000 := by
  unfold stackResolved
  simp only [gaps_exC4, min_exC4]
  have hfil : (([(1 : ℝ) / 3]).filter fun g => decide (g / (1 / 3) ≤ (1.2 : ℝ))) =
      [(1 : ℝ) / 3] := by
    simp only [List.filter_cons, List.filter_nil]
    rw [if_pos (decide_eq_true (by norm_num))]
  rw [hfil]
  have hmean : mean [(1 : ℝ) / 3] = 1 / 3 := by
    unfold mean
    simp
  rw [hmean, round5_third]

theorem axisMinDiff_exC4 : axisMinDiff exC4 0 = 1 / 3 := by
  unfold axisMinDiff axisValues
  rw [sort_exC4]
  norm_num [wSliceA, wSliceThird, consecDiffs, listMinQ]

/-- C4 counterexample: for the two-slice stack `exC4` (canonical origins 0 and 1/3
along z) the assembled orientation entry (0, 0) equals 1 — the code rounds the minimum
delta to 5 decimals before dividing by the (likewise rounded) resolved z-spacing
0.33333 — while the claim's unrounded formula gives (1/3) / 0.33333 ≠ 1. -/
theorem c4_counterexample :
    orientEntry exC4 0 0 = some 1 ∧ claimOrientationC4 exC4 wSliceA 0 0 ≠ 1 := by
  constructor
  · have hcs : completeStack exC4 = some (assembleFields exC4 wSliceA) :=
      completeStack_eq_some rfl (by rw [gaps_exC4]; simp)
    have hentry : (assembleFields exC4 wSliceA).imageOrientation 0 0 = 1 := by
      rw [assembleFields_orientation]
      unfold stackOrientation
      rw [if_pos rfl, axisMinDiff_exC4]
      push_cast
      rw [round5_third, resolved_exC4]
      norm_num
    unfold orientEntry
    rw [hcs]
    simp [hentry]
  · unfold claimOrientationC4
    rw [if_pos rfl, axisMinDiff_exC4, resolved_exC4]
    push_cast
    norm_num

/-! ### Rounding lemmas for the physical-unit integrity step -/

theorem abs_sub_roundHalfEvenR (x : ℝ) : |x - roundHalfEvenR x| ≤ 1 / 2 := by
  have h0 : ((⌊x⌋ : ℤ) : ℝ) ≤ x := Int.floor_le x
  have h1 : x < ⌊x⌋ + 1 := Int.lt_floor_add_one x
  unfold roundHalfEvenR rndHalfEven
  split_ifs with hlt hgt hev
  · rw [abs_le]
    constructor <;> linarith
  · push_cast
    rw [abs_le]
    constructor <;> linarith
  · rw [abs_le]
    constructor <;> linarith [le_of_not_lt hlt, le_of_not_lt hgt]
  · push_cast
    rw [abs_le]
    constructor <;> linarith [le_of_not_lt hlt, le_of_not_lt hgt]

theorem rndHalfEven_tie (k : ℤ) :
    rndHalfEven ((k : ℝ) + 1 / 2) = if 2 ∣ k then k else k + 1 := by
  have hf : ⌊(k : ℝ) + 1 / 2⌋ = k := by
    rw [Int.floor_eq_iff]
    constructor <;> linarith
  have he : (k : ℝ) + 1 / 2 - (k : ℝ) = 1 / 2 := by ring
  unfold rndHalfEven
  rw [hf, he, if_neg (by norm_num), if_neg (by norm_num)]

/-- C9: for a physical-unit image, a data assignment is followed by the integrity step
(`update_image_data`), which replaces every voxel value by the same rounding map: the
nearest integer, ties resolved to the even integer (the `np.round` half-to-even
convention, one of the two conventions the claim allows); consequently all stored voxel
values are integers while the entity remains in the physical-unit state. -/
theorem c9_integer_rounding (b : ImageBase) (d : VoxelData) (h : b.imageData = some d) :
    (CTImage.update_image_data b).imageData = some (d.map roundHalfEvenR) ∧
    (ctSetData b d).imageData = some (d.map roundHalfEvenR) ∧
    (∀ v ∈ d.map roundHalfEvenR, ∃ k : ℤ, v = (k : ℝ)) ∧
    (∀ x : ℝ, |x - roundHalfEvenR x| ≤ 1 / 2) ∧
    (∀ k : ℤ, rndHalfEven ((k : ℝ) + 1 / 2) = if 2 ∣ k then k else k + 1) := by
  refine ⟨?_, ?_, ?_, abs_sub_roundHalfEvenR, rndHalfEven_tie⟩
  · unfold CTImage.update_image_data
    rw [h]
  · rfl
  · intro v hv
    rcases List.mem_map.mp hv with ⟨x, _, rfl⟩
    exact ⟨rndHalfEven x, rfl⟩

theorem c9_witness :
    wBase9.imageData = some [(5 : ℝ) / 2, -(1 : ℝ) / 2] ∧
      ((CTImage.update_image_data wBase9).imageData =
        some (([(5 : ℝ) / 2, -(1 : ℝ) / 2]).map roundHalfEvenR) ∧
      (ctSetData wBase9 [(5 : ℝ) / 2, -(1 : ℝ) / 2]).imageData =
        some (([(5 : ℝ) / 2, -(1 : ℝ) / 2]).map roundHalfEvenR) ∧
      (∀ v ∈ ([(5 : ℝ) / 2, -(1 : ℝ) / 2]).map roundHalfEvenR, ∃ k : ℤ, v = (k : ℝ)) ∧
      (∀ x : ℝ, |x - roundHalfEvenR x| ≤ 1 / 2) ∧
      (∀ k : ℤ, rndHalfEven ((k : ℝ) + 1 / 2) = if 2 ∣ k then k else k + 1)) :=
  ⟨rfl, c9_integer_rounding wBase9 [(5 : ℝ) / 2, -(1 : ℝ) / 2] rfl⟩

/-- C5: for a physical-unit image with voxel data, normalisation with a non-trivial
method and scaling with a factor different from 1.0 each return a newly constructed
generic-variant entity whose geometry fields and diagnostic metadata are copied
field-by-field from the source through the template copy, and whose voxel data is the
transformed data; the operations are pure — the physical-unit entity they were invoked
on is returned untouched on the no-op paths and never reassigned. -/
theorem c5_demotion_template_copy
    (normaliseData : NormMethod → VoxelData → VoxelData) (b : ImageBase) (d : VoxelData)
    (hd : b.imageData = some d) (m : NormMethod) (hm : m ≠ NormMethod.nonorm)
    (scale : ℝ) (hs : scale ≠ 1) :
    (∃ nb, CTImage.normalise_intensities normaliseData b (some m) = AnyImage.generic nb ∧
      nb.imageOrigin = b.imageOrigin ∧ nb.imageSpacing = b.imageSpacing ∧
      nb.imageOrientation = b.imageOrientation ∧ nb.imageDimension = b.imageDimension ∧
      nb.diagnostics = b.diagnostics ∧ nb.imageData = some (normaliseData m d)) ∧
    (∃ sb, CTImage.scale_intensities b scale = AnyImage.generic sb ∧
      sb.imageOrigin = b.imageOrigin ∧ sb.imageSpacing = b.imageSpacing ∧
      sb.imageOrientation = b.imageOrientation ∧ sb.imageDimension = b.imageDimension ∧
      sb.diagnostics = b.diagnostics ∧ sb.imageData = some (d.map fun v => v * scale)) := by
  obtain ⟨bd, bo, bs, bor, bdim, bdiag⟩ := b
  have hbd : bd = some d := hd
  subst hbd
  constructor
  · cases m with
    | nonorm => exact absurd rfl hm
    | range => exact ⟨_, rfl, rfl, rfl, rfl, rfl, rfl, rfl⟩
    | relativeRange => exact ⟨_, rfl, rfl, rfl, rfl, rfl, rfl, rfl⟩
    | quantileRange => exact ⟨_, rfl, rfl, rfl, rfl, rfl, rfl, rfl⟩
  · refine ⟨⟨some (d.map (fun v => v * scale)), bo, bs, bor, bdim, bdiag⟩,
      ?_, rfl, rfl, rfl, rfl, rfl, rfl⟩
    show (if scale = 1 then _ else _) = _
    rw [if_neg hs]
    rfl

theorem c5_witness :
    wBase5.imageData = some [(5 : ℝ) / 2] ∧ NormMethod.range ≠ NormMethod.nonorm ∧
      (2 : ℝ) ≠ 1 ∧
      ((∃ nb, CTImage.normalise_intensities idNormalise wBase5 (some NormMethod.range) =
          AnyImage.generic nb ∧
        nb.imageOrigin = wBase5.imageOrigin ∧ nb.imageSpacing = wBase5.imageSpacing ∧
        nb.imageOrientation = wBase5.imageOrientation ∧
        nb.imageDimension = wBase5.imageDimension ∧
        nb.diagnostics = wBase5.diagnostics ∧
        nb.imageData = some (idNormalise NormMethod.range [(5 : ℝ) / 2])) ∧
      (∃ sb, CTImage.scale_intensities wBase5 2 = AnyImage.generic sb ∧
        sb.imageOrigin = wBase5.imageOrigin ∧ sb.imageSpacing = wBase5.imageSpacing ∧
        sb.imageOrientation = wBase5.imageOrientation ∧
        sb.imageDimension = wBase5.imageDimension ∧
        sb.diagnostics = wBase5.diagnostics ∧
        sb.imageData = some (([(5 : ℝ) / 2]).map fun v => v * 2))) :=
  ⟨rfl, by decide, by norm_num,
    c5_demotion_template_copy idNormalise wBase5 [(5 : ℝ) / 2] rfl NormMethod.range
      (by decide) 2 (by norm_num)⟩

/-- C6: for every physical-unit image, normalisation with an absent or `"none"` method
and scaling with factor 1.0 return the original entity itself, unchanged and still of
the physical-unit variant. -/
theorem c6_identity_cases (normaliseData : NormMethod → VoxelData → VoxelData)
    (b : ImageBase) :
    CTImage.normalise_intensities normaliseData b Option.none = AnyImage.ct b ∧
    CTImage.normalise_intensities normaliseData b (some NormMethod.nonorm) =
      AnyImage.ct b ∧
    CTImage.scale_intensities b 1 = AnyImage.ct b := by
  obtain ⟨bd, bo, bs, bor, bdim, bdiag⟩ := b
  cases bd with
  | none => exact ⟨rfl, rfl, rfl⟩
  | some d =>
      refine ⟨rfl, rfl, ?_⟩
      show (if (1 : ℝ) = 1 then _ else _) = _
      rw [if_pos rfl]

/-- C10: a physical-unit image without voxel data is left unchanged by
`update_image_data`, and both `normalise_intensities` (for any method, trivial or not)
and `scale_intensities` (for any factor) return the original physical-unit entity
itself: demotion to the generic variant never happens without voxel data. -/
theorem c10_absent_data (normaliseData : NormMethod → VoxelData → VoxelData)
    (b : ImageBase) (h : b.imageData = Option.none) :
    CTImage.update_image_data b = b ∧
    (∀ method, CTImage.normalise_intensities normaliseData b method = AnyImage.ct b) ∧
    (∀ scale : ℝ, CTImage.scale_intensities b scale = AnyImage.ct b) := by
  obtain ⟨bd, bo, bs, bor, bdim, bdiag⟩ := b
  have hbd : bd = Option.none := h
  subst hbd
  exact ⟨rfl, fun _ => rfl, fun _ => rfl⟩

theorem c10_witness :
    wBase10.imageData = Option.none ∧
      (CTImage.update_image_data wBase10 = wBase10 ∧
      (∀ method, CTImage.normalise_intensities idNormalise wBase10 method =
        AnyImage.ct wBase10) ∧
      (∀ scale : ℝ, CTImage.scale_intensities wBase10 scale = AnyImage.ct wBase10)) :=
  ⟨rfl, c10_absent_data idNormalise wBase10 rfl⟩

end Mirp
